import Mathlib

/-!
Verification development for `src/lib/chat.ts` of chuanqisun/natural-voice-chat.

The file shallowly embeds the chat client:
* a JSON value model and a model of the platform JSON text decoder used by the
  streaming loop (`JSON.parse`),
* the stream frame reassembler of `ChatClient.getChatStream`
  (chat.ts lines 155-182): decoded text chunks are accumulated in an
  unfinished-line buffer, whole lines are split off, matched against the
  frame pattern and their payloads parsed and yielded,
* a byte-level variant that models `decoder.decode(value)` being called
  without carrying decoder state between chunks (chat.ts line 163),
* the request payload merge of `getChatResponse` / `getChatStream`
  (chat.ts lines 74-83 and 122-131),
* the response validation of `getChatResponse` (chat.ts lines 95-110).

Strings are modelled as `List Char` (the code points of the JS string).
-/

/-- Helper turning a Lean string literal into the `List Char` model of a
JS string. -/
def cs (s : String) : List Char := s.toList

/-- JSON values as produced by `JSON.parse`.  Object fields keep their
textual order; a duplicated key is resolved by `Json.lookupLast` below
(later assignment wins, as in JS object literals built by the JSON
decoder).  Numbers keep their source lexeme: no claim computes with a
numeric value, only zero-ness (truthiness) is ever inspected, which is
decidable on the lexeme. -/
inductive Json where
  | null
  | bool (b : Bool)
  | num (lexeme : List Char)
  | str (s : List Char)
  | arr (elements : List Json)
  | obj (fields : List (List Char × Json))

/-- Field lookup in a JSON object: the value of the LAST binding of the
key, matching the overwrite semantics of JS property assignment during
JSON decoding. -/
def Json.lookupLast : List (List Char × Json) → List Char → Option Json
  | [], _ => none
  | (k, v) :: rest, key =>
    match Json.lookupLast rest key with
    | some r => some r
    | none => if k = key then some v else none

/-- Optional-chained member access `v?.k`, as used in the stream loop for
the keys `error`, `message` and `choices`.  `none` plays the role of JS
`undefined`.  A nullish or non-object base gives `undefined` (none of the
keys used is a built-in property of JS primitives or arrays). -/
def jfield : Option Json → List Char → Option Json
  | some (Json.obj fields), key => Json.lookupLast fields key
  | _, _ => none

/-- Truthiness of the mantissa of a JSON number lexeme: the value is zero
iff every digit before the exponent marker is `0` (the JSON grammar has
no NaN or infinity). -/
def numLexTruthy (lexeme : List Char) : Bool :=
  (lexeme.takeWhile (fun c => c ≠ 'e' ∧ c ≠ 'E')).any (fun c => '1' ≤ c ∧ c ≤ '9')

/-- JS truthiness of a JSON value. -/
def Json.truthy : Json → Bool
  | Json.null => false
  | Json.bool b => b
  | Json.num lexeme => numLexTruthy lexeme
  | Json.str s => !s.isEmpty
  | Json.arr _ => true
  | Json.obj _ => true

/-- JS truthiness of a possibly-undefined value (`undefined` is falsy). -/
def truthyOpt : Option Json → Bool
  | none => false
  | some v => v.truthy

/-- The value of `item?.error?.message` (chat.ts line 178). -/
def errMessageOf (item : Json) : Option Json :=
  jfield (jfield (some item) (cs "error")) (cs "message")

/-- The test `Array.isArray(item?.choices)` (chat.ts line 179). -/
def choicesIsArray (item : Json) : Bool :=
  match jfield (some item) (cs "choices") with
  | some (Json.arr _) => true
  | _ => false

/-! ### A model of `JSON.parse`

`JSON.parse` is a platform builtin; the model below implements the
ECMA-404 JSON grammar: values are objects, arrays, strings with the JSON
escape set, numbers, `true`, `false`, `null`, with insignificant
whitespace (space, tab, LF, CR).  Recursion is bounded by explicit fuel;
`Json.parse` supplies fuel ample for any input (two units per input
character cover every recursive descent step). A `\uXXXX` escape that
denotes a lone UTF-16 surrogate (representable in a JS string but not as
a Unicode scalar value) is modelled as NUL; no claim exercises that
corner. -/

/-- Skip JSON insignificant whitespace. -/
def skipWs (s : List Char) : List Char :=
  s.dropWhile (fun c => c = ' ' ∨ c = '\t' ∨ c = '\n' ∨ c = '\r')

/-- Value of a hexadecimal digit. -/
def hexDigit? (c : Char) : Option Nat :=
  if '0' ≤ c ∧ c ≤ '9' then some (c.toNat - '0'.toNat)
  else if 'a' ≤ c ∧ c ≤ 'f' then some (c.toNat - 'a'.toNat + 10)
  else if 'A' ≤ c ∧ c ≤ 'F' then some (c.toNat - 'A'.toNat + 10)
  else none

/-- Decode a `\uXXXX` payload of four hex digits. -/
def hex4? (h1 h2 h3 h4 : Char) : Option Nat :=
  match hexDigit? h1, hexDigit? h2, hexDigit? h3, hexDigit? h4 with
  | some a, some b, some c, some d => some (((a * 16 + b) * 16 + c) * 16 + d)
  | _, _, _, _ => none

/-- Body of a JSON string after the opening quote: returns the decoded
content and the remaining input after the closing quote. -/
def parseStrBody : Nat → List Char → Option (List Char × List Char)
  | 0, _ => none
  | _ + 1, [] => none
  | _ + 1, '"' :: rest => some ([], rest)
  | fuel + 1, '\\' :: esc =>
    match esc with
    | '"' :: r => (parseStrBody fuel r).map (fun p => ('"' :: p.1, p.2))
    | '\\' :: r => (parseStrBody fuel r).map (fun p => ('\\' :: p.1, p.2))
    | '/' :: r => (parseStrBody fuel r).map (fun p => ('/' :: p.1, p.2))
    | 'b' :: r => (parseStrBody fuel r).map (fun p => (Char.ofNat 8 :: p.1, p.2))
    | 'f' :: r => (parseStrBody fuel r).map (fun p => (Char.ofNat 12 :: p.1, p.2))
    | 'n' :: r => (parseStrBody fuel r).map (fun p => ('\n' :: p.1, p.2))
    | 'r' :: r => (parseStrBody fuel r).map (fun p => ('\r' :: p.1, p.2))
    | 't' :: r => (parseStrBody fuel r).map (fun p => ('\t' :: p.1, p.2))
    | 'u' :: h1 :: h2 :: h3 :: h4 :: r =>
      match hex4? h1 h2 h3 h4 with
      | none => none
      | some n =>
        if 0xD800 ≤ n ∧ n ≤ 0xDBFF then
          match r with
          | '\\' :: 'u' :: g1 :: g2 :: g3 :: g4 :: r2 =>
            match hex4? g1 g2 g3 g4 with
            | some m =>
              if 0xDC00 ≤ m ∧ m ≤ 0xDFFF then
                (parseStrBody fuel r2).map (fun p =>
                  (Char.ofNat (0x10000 + (n - 0xD800) * 0x400 + (m - 0xDC00)) :: p.1, p.2))
              else (parseStrBody fuel r).map (fun p => (Char.ofNat 0 :: p.1, p.2))
            | none => (parseStrBody fuel r).map (fun p => (Char.ofNat 0 :: p.1, p.2))
          | _ => (parseStrBody fuel r).map (fun p => (Char.ofNat 0 :: p.1, p.2))
        else if 0xDC00 ≤ n ∧ n ≤ 0xDFFF then
          (parseStrBody fuel r).map (fun p => (Char.ofNat 0 :: p.1, p.2))
        else (parseStrBody fuel r).map (fun p => (Char.ofNat n :: p.1, p.2))
    | _ => none
  | fuel + 1, c :: rest =>
    if c.toNat ≥ 0x20 then (parseStrBody fuel rest).map (fun p => (c :: p.1, p.2))
    else none

/-- Lex a JSON number: optional minus, integer part without leading
zeros, optional fraction, optional exponent.  Returns the lexeme and the
remaining input. -/
def parseNumLex (s : List Char) : Option (List Char × List Char) :=
  let (minus, s1) : List Char × List Char :=
    match s with
    | '-' :: r => (['-'], r)
    | _ => ([], s)
  match s1 with
  | [] => none
  | c :: r =>
    if c = '0' ∨ ('1' ≤ c ∧ c ≤ '9') then
      let (intPart, s2) : List Char × List Char :=
        if c = '0' then ([c], r)
        else (c :: r.takeWhile Char.isDigit, r.dropWhile Char.isDigit)
      let (fracPart, s3) : List Char × List Char :=
        match s2 with
        | '.' :: r2 =>
          let ds := r2.takeWhile Char.isDigit
          if ds.isEmpty then ([], s2) else ('.' :: ds, r2.dropWhile Char.isDigit)
        | _ => ([], s2)
      -- a malformed fraction such as "1." stops the number before the dot,
      -- which then fails at the outer grammar level, as in JSON.parse
      if (match s2 with | '.' :: r2 => !(r2.takeWhile Char.isDigit).isEmpty | _ => true) then
        let (expPart, s4) : List Char × List Char :=
          match s3 with
          | e :: r3 =>
            if e = 'e' ∨ e = 'E' then
              let (sgn, r4) : List Char × List Char :=
                match r3 with
                | '+' :: r5 => (['+'], r5)
                | '-' :: r5 => (['-'], r5)
                | _ => ([], r3)
              let ds := r4.takeWhile Char.isDigit
              if ds.isEmpty then ([], s3) else (e :: (sgn ++ ds), r4.dropWhile Char.isDigit)
            else ([], s3)
          | [] => ([], s3)
        if (match s3 with
            | e :: r3 =>
              if e = 'e' ∨ e = 'E' then
                !((match r3 with
                   | '+' :: r5 => r5
                   | '-' :: r5 => r5
                   | _ => r3).takeWhile Char.isDigit).isEmpty
              else true
            | [] => true) then
          some (minus ++ intPart ++ fracPart ++ expPart, s4)
        else none
      else none
    else none

mutual

/-- Parse one JSON value (after skipping leading whitespace); returns the
value and the remaining input. -/
def parseVal : Nat → List Char → Option (Json × List Char)
  | 0, _ => none
  | fuel + 1, s =>
    match skipWs s with
    | [] => none
    | '{' :: rest =>
      match skipWs rest with
      | '}' :: r2 => some (Json.obj [], r2)
      | r2 => (parseObjItems fuel r2).map (fun p => (Json.obj p.1, p.2))
    | '[' :: rest =>
      match skipWs rest with
      | ']' :: r2 => some (Json.arr [], r2)
      | r2 => (parseArrItems fuel r2).map (fun p => (Json.arr p.1, p.2))
    | '"' :: rest => (parseStrBody (rest.length + 1) rest).map (fun p => (Json.str p.1, p.2))
    | 't' :: rest =>
      match rest with
      | 'r' :: 'u' :: 'e' :: r2 => some (Json.bool true, r2)
      | _ => none
    | 'f' :: rest =>
      match rest with
      | 'a' :: 'l' :: 's' :: 'e' :: r2 => some (Json.bool false, r2)
      | _ => none
    | 'n' :: rest =>
      match rest with
      | 'u' :: 'l' :: 'l' :: r2 => some (Json.null, r2)
      | _ => none
    | s2 => (parseNumLex s2).map (fun p => (Json.num p.1, p.2))

/-- Parse the members of a JSON object, positioned at the first key;
consumes the closing brace. -/
def parseObjItems : Nat → List Char → Option (List (List Char × Json) × List Char)
  | 0, _ => none
  | fuel + 1, s =>
    match s with
    | '"' :: rest =>
      match parseStrBody (rest.length + 1) rest with
      | none => none
      | some (key, r2) =>
        match skipWs r2 with
        | ':' :: r3 =>
          match parseVal fuel r3 with
          | none => none
          | some (v, r4) =>
            match skipWs r4 with
            | ',' :: r5 => (parseObjItems fuel (skipWs r5)).map (fun p => ((key, v) :: p.1, p.2))
            | '}' :: r5 => some ([(key, v)], r5)
            | _ => none
        | _ => none
    | _ => none

/-- Parse the elements of a JSON array, positioned at the first element;
consumes the closing bracket. -/
def parseArrItems : Nat → List Char → Option (List Json × List Char)
  | 0, _ => none
  | fuel + 1, s =>
    match parseVal fuel s with
    | none => none
    | some (v, r2) =>
      match skipWs r2 with
      | ',' :: r3 => (parseArrItems fuel r3).map (fun p => (v :: p.1, p.2))
      | ']' :: r3 => some ([v], r3)
      | _ => none

end

/-- Model of `JSON.parse` (chat.ts line 177): `none` models the thrown
`SyntaxError`. -/
def Json.parse (s : List Char) : Option Json :=
  match parseVal (2 * s.length + 2) s with
  | some (v, rest) => if (skipWs rest).isEmpty then some v else none
  | none => none

/-! ### The stream frame reassembler (chat.ts lines 155-182)

The loop keeps `unfinishedLine`, appends each decoded chunk to it forming
`currentWindow`, keeps everything after the last `"\n"` as the new
`unfinishedLine`, splits everything up to and including the last `"\n"`
into lines, drops empty lines (`filter(Boolean)`), matches each line
against `/^data: (\{.*\})$/` and processes the captured payloads. -/

/-- The character test used to find the last line terminator: true on
every character other than `"\n"`. -/
def notNl (c : Char) : Bool := c ≠ '\n'

/-- The part of the window after the last `"\n"`:
`currentWindow.slice(currentWindow.lastIndexOf("\n") + 1)` (chat.ts
line 167).  It is the longest newline-free suffix, i.e. the reversed
newline-free prefix of the reversed window; when the window has no
newline the whole window is kept, as `slice(0)` does. -/
def unfinishedOf (w : List Char) : List Char :=
  (w.reverse.takeWhile notNl).reverse

/-- The part of the window up to and including the last `"\n"`:
`currentWindow.slice(0, currentWindow.lastIndexOf("\n") + 1)` (chat.ts
line 170); empty when the window has no newline (`slice(0, 0)`). -/
def headOf (w : List Char) : List Char :=
  (w.reverse.dropWhile notNl).reverse

/-- JS `String.prototype.split("\n")`: the list of newline-separated
segments; never empty, and `""` splits to `[""]`. -/
def splitNl : List Char → List (List Char)
  | [] => [[]]
  | c :: rest =>
    if c = '\n' then [] :: splitNl rest
    else
      match splitNl rest with
      | [] => [[c]]
      | l :: ls => (c :: l) :: ls

/-- String truthiness as used by `.filter(Boolean)` on lines: true iff
the line is nonempty. -/
def lineNonempty (l : List Char) : Bool := !l.isEmpty

/-- The whole lines of a window head: `.split("\n").filter(Boolean)`
(chat.ts lines 169-172). -/
def wholeLinesOf (head : List Char) : List (List Char) :=
  (splitNl head).filter lineNonempty

/-- First capture group of `/^data: (\{.*\})$/` applied to a whole line
(chat.ts line 174), or `none` when the line does not match.  A line
matches iff it is `"data: "` followed by a payload of at least two
characters that starts with `"\x7b"`, ends with `"\x7d"`, and contains no
character the regexp dot refuses (`"\r"`, U+2028, U+2029; `"\n"` cannot
occur in a whole line). -/
def matchDataLine (line : List Char) : Option (List Char) :=
  if line.take 6 = cs "data: " then
    let payload := line.drop 6
    if 2 ≤ payload.length ∧ payload.head? = some '{' ∧ payload.getLast? = some '}' ∧
        payload.all (fun c => c ≠ '\r' ∧ c ≠ Char.ofNat 0x2028 ∧ c ≠ Char.ofNat 0x2029 ∧ c ≠ '\n') then
      some payload
    else none
  else none

/-- One iteration of the read loop on a decoded chunk (chat.ts lines
163-174): returns the new unfinished-line buffer, the whole lines split
off, and the matched frame payloads. -/
def chunkStep (unfinishedLine chunk : List Char) :
    List Char × List (List Char) × List (List Char) :=
  let currentWindow := unfinishedLine ++ chunk
  let wholeLines := wholeLinesOf (headOf currentWindow)
  (unfinishedOf currentWindow, wholeLines, wholeLines.filterMap matchDataLine)

/-- The read loop over the list of decoded chunks delivered before
end-of-stream (chat.ts lines 157-182): accumulates all whole lines and
all matched frame payloads in order, and returns the final unfinished-line
buffer, which the loop abandons when `done` is observed. -/
def readLoop (unfinishedLine : List Char) :
    List (List Char) → List (List Char) × List (List Char) × List Char
  | [] => ([], [], unfinishedLine)
  | chunk :: rest =>
    let step := chunkStep unfinishedLine chunk
    let next := readLoop step.1 rest
    (step.2.1 ++ next.1, step.2.2 ++ next.2.1, next.2.2)

/-- All frame payloads matched over a whole stream of decoded chunks. -/
def streamMatches (chunks : List (List Char)) : List (List Char) :=
  (readLoop [] chunks).2.1

/-- Outcome of the generator body for one matched payload: a thrown
`SyntaxError` from `JSON.parse`, a thrown `Error(item.error.message)`
carrying the message value, or a thrown `Error("Invalid response")`. -/
inductive StreamErr where
  | parseFail
  | serverError (message : Json)
  | invalidResponse

/-- The choices-shape check and yield (chat.ts lines 179-180). -/
def processChoices (item : Json) : Except StreamErr Json :=
  if choicesIsArray item then Except.ok item
  else Except.error StreamErr.invalidResponse

/-- Processing of one matched payload (chat.ts lines 177-180): parse,
throw on a truthy `item?.error?.message` (the thrown error carries
`item.error.message`, which under the guard is that same truthy value),
then check `choices` and yield. -/
def processMatch (m : List Char) : Except StreamErr Json :=
  match Json.parse m with
  | none => Except.error StreamErr.parseFail
  | some item =>
    match errMessageOf item with
    | some v =>
      if v.truthy then Except.error (StreamErr.serverError v)
      else processChoices item
    | none => processChoices item

/-- Boolean form of "this match is parsed and yielded without throwing". -/
def processOk (m : List Char) : Bool :=
  match processMatch m with
  | Except.ok _ => true
  | Except.error _ => false

/-- The yield loop over matched payloads (chat.ts lines 176-181): the
items yielded in order, and the error that aborted the generator, if
any.  A throw stops all further processing; items yielded before it
remain yielded. -/
def runMatches : List (List Char) → List Json × Option StreamErr
  | [] => ([], none)
  | m :: ms =>
    match processMatch m with
    | Except.error e => ([], some e)
    | Except.ok item =>
      let rest := runMatches ms
      (item :: rest.1, rest.2)

/-- The observable behaviour of `ChatClient.getChatStream` after a
successful fetch, as a function of the decoded text chunks delivered by
the transport: the yielded items in order, and the aborting error if
any.  (An abort also stops the chunk reads, but reading is pure here, so
collecting matches first yields the same items and the same error.) -/
def getChatStreamRun (chunks : List (List Char)) : List Json × Option StreamErr :=
  runMatches (streamMatches chunks)

/-! ### Byte-level chunks

Chat.ts line 163 decodes every received byte chunk with
`decoder.decode(value)` — without `{ stream: true }`, so each call
flushes: a multi-byte UTF-8 sequence cut by a chunk boundary is decoded
to replacement characters instead of being carried over to the next
chunk.  `utf8DecodeFlush` models one such stand-alone decode (WHATWG
UTF-8 decode with replacement). -/

/-- Test for a UTF-8 continuation byte. -/
def isCont (b : Nat) : Bool := 0x80 ≤ b ∧ b ≤ 0xBF

/-- WHATWG UTF-8 decoding with replacement of one whole byte sequence,
fuelled by the number of bytes. -/
def utf8DecodeGo : Nat → List Nat → List Char
  | 0, _ => []
  | _ + 1, [] => []
  | fuel + 1, b :: bs =>
    if b ≤ 0x7F then Char.ofNat b :: utf8DecodeGo fuel bs
    else if b ≤ 0xC1 then '�' :: utf8DecodeGo fuel bs
    else if b ≤ 0xDF then
      match bs with
      | b2 :: bs2 =>
        if isCont b2 then Char.ofNat ((b - 0xC0) * 0x40 + (b2 - 0x80)) :: utf8DecodeGo fuel bs2
        else '�' :: utf8DecodeGo fuel bs
      | [] => ['�']
    else if b ≤ 0xEF then
      match bs with
      | b2 :: bs2 =>
        if (if b = 0xE0 then 0xA0 ≤ b2 ∧ b2 ≤ 0xBF
            else if b = 0xED then 0x80 ≤ b2 ∧ b2 ≤ 0x9F
            else isCont b2 = true) then
          match bs2 with
          | b3 :: bs3 =>
            if isCont b3 then
              Char.ofNat ((b - 0xE0) * 0x1000 + (b2 - 0x80) * 0x40 + (b3 - 0x80)) ::
                utf8DecodeGo fuel bs3
            else '�' :: utf8DecodeGo fuel bs2
          | [] => ['�']
        else '�' :: utf8DecodeGo fuel bs
      | [] => ['�']
    else if b ≤ 0xF4 then
      match bs with
      | b2 :: bs2 =>
        if (if b = 0xF0 then 0x90 ≤ b2 ∧ b2 ≤ 0xBF
            else if b = 0xF4 then 0x80 ≤ b2 ∧ b2 ≤ 0x8F
            else isCont b2 = true) then
          match bs2 with
          | b3 :: bs3 =>
            if isCont b3 then
              match bs3 with
              | b4 :: bs4 =>
                if isCont b4 then
                  Char.ofNat ((b - 0xF0) * 0x40000 + (b2 - 0x80) * 0x1000 +
                      (b3 - 0x80) * 0x40 + (b4 - 0x80)) :: utf8DecodeGo fuel bs4
                else '�' :: utf8DecodeGo fuel bs3
              | [] => ['�']
            else '�' :: utf8DecodeGo fuel bs2
          | [] => ['�']
        else '�' :: utf8DecodeGo fuel bs
      | [] => ['�']
    else '�' :: utf8DecodeGo fuel bs

/-- One stand-alone `decoder.decode(value)` call on a whole byte chunk. -/
def utf8DecodeFlush (bytes : List Nat) : List Char :=
  utf8DecodeGo (bytes.length + 1) bytes

/-- The observable behaviour of `ChatClient.getChatStream` as a function
of the raw byte chunks delivered by the transport: each chunk is decoded
independently (chat.ts line 163) and fed to the text-level loop. -/
def getChatStreamRunBytes (chunks : List (List Nat)) : List Json × Option StreamErr :=
  getChatStreamRun (chunks.map utf8DecodeFlush)

/-! ### Request payload construction (chat.ts lines 1-35, 74-83, 122-131) -/

/-- The `detail` level of an image part (chat.ts line 24). -/
inductive ImageDetail where
  | auto
  | low
  | high
deriving DecidableEq

/-- One part of a multi-part message content (chat.ts lines 18-31). -/
inductive ChatMessagePart where
  | text (text : List Char)
  | image_url (url : List Char) (detail : Option ImageDetail)
deriving DecidableEq

/-- A message role (chat.ts line 14). -/
inductive ChatRole where
  | assistant
  | user
  | system
deriving DecidableEq

/-- Message content: either a list of typed parts or a plain string
(chat.ts line 15). -/
inductive MessageContent where
  | parts (parts : List ChatMessagePart)
  | str (s : List Char)
deriving DecidableEq

/-- One chat message (chat.ts lines 13-16). -/
structure ChatMessage where
  role : ChatRole
  content : MessageContent
deriving DecidableEq

/-- The `stop` payload field: a string or a list of strings (chat.ts
line 8). -/
inductive StopValue where
  | str (s : List Char)
  | list (stops : List (List Char))
deriving DecidableEq

/-- The `response_format` payload field (chat.ts lines 33-35). -/
inductive ResponseFormatType where
  | json_object
  | text
deriving DecidableEq

/-- The full request payload `OpenAIChatPayload` (chat.ts lines 1-11).
JS numbers carry no arithmetic here, so they are modelled as exact
rationals. -/
structure OpenAIChatPayload where
  messages : List ChatMessage
  temperature : Rat
  top_p : Rat
  frequency_penalty : Rat
  presence_penalty : Rat
  max_tokens : Int
  stop : StopValue
  response_format : Option ResponseFormatType
  seed : Option Int
deriving DecidableEq

/-- A caller-supplied config: every payload field optional, `none`
meaning the property is absent from the object (the TS type is a
property-subset of `OpenAIChatPayload`). -/
structure PayloadConfig where
  messages : Option (List ChatMessage) := none
  temperature : Option Rat := none
  top_p : Option Rat := none
  frequency_penalty : Option Rat := none
  presence_penalty : Option Rat := none
  max_tokens : Option Int := none
  stop : Option StopValue := none
  response_format : Option ResponseFormatType := none
  seed : Option Int := none
deriving DecidableEq

/-- The payload built by `getChatResponse` (chat.ts lines 74-83): the
defaults record spread-overridden by the fields present in `config`. -/
def getChatResponsePayload (messages : List ChatMessage) (config : Option PayloadConfig) :
    OpenAIChatPayload :=
  let c := config.getD {}
  { messages := c.messages.getD messages
    temperature := c.temperature.getD 0.7
    top_p := c.top_p.getD 1
    frequency_penalty := c.frequency_penalty.getD 0
    presence_penalty := c.presence_penalty.getD 0
    max_tokens := c.max_tokens.getD 60
    stop := c.stop.getD (StopValue.str [])
    response_format := c.response_format
    seed := c.seed }

/-- The payload built by `getChatStream` (chat.ts lines 122-131), textually
the same merge; the request body additionally carries `stream: true`
(chat.ts line 139), which touches no payload field. -/
def getChatStreamPayload (messages : List ChatMessage) (config : Option PayloadConfig) :
    OpenAIChatPayload :=
  let c := config.getD {}
  { messages := c.messages.getD messages
    temperature := c.temperature.getD 0.7
    top_p := c.top_p.getD 1
    frequency_penalty := c.frequency_penalty.getD 0
    presence_penalty := c.presence_penalty.getD 0
    max_tokens := c.max_tokens.getD 60
    stop := c.stop.getD (StopValue.str [])
    response_format := c.response_format
    seed := c.seed }

/-! ### Non-streaming response validation (chat.ts lines 37-51, 95-110) -/

/-- A finish reason (chat.ts line 39); `null` is modelled by `Option`
at the use site. -/
inductive FinishReason where
  | stop
  | length
  | content_filter
deriving DecidableEq

/-- The message of one choice (chat.ts lines 41-44); the role is always
`assistant`. -/
structure ChoiceMessage where
  content : Option (List Char)
deriving DecidableEq

/-- One choice of a non-streaming response (chat.ts lines 38-45). -/
structure ResponseChoice where
  finish_reason : Option FinishReason
  index : Int
  message : ChoiceMessage
deriving DecidableEq

/-- Token usage of a non-streaming response (chat.ts lines 46-50). -/
structure Usage where
  completion_tokens : Int
  prompt_tokens : Int
  total_tokens : Int
deriving DecidableEq

/-- A parsed non-streaming response of the declared type
`OpenAIChatResponse` (chat.ts lines 37-51), extended with the untyped
`error` property that line 95 reads through an `any`-cast; `none` means
the property is absent. -/
structure OpenAIChatResponse where
  choices : List ResponseChoice
  usage : Usage
  error : Option Json

/-- An error thrown by `getChatResponse` after a parsed body arrived:
`Error(result.error.message)` (chat.ts line 96, carrying the possibly
absent `message` value of the truthy `error` property), or the
`"Chat stopped due to ..."` error (line 100, carrying
`result.choices[0]?.finish_reason`, where the outer `none` models
`undefined` from an empty choices list). -/
inductive ResponseError where
  | serverError (message : Option Json)
  | abnormalFinish (finish_reason : Option (Option FinishReason))

/-- The lookup `result.choices[0]?.finish_reason` (chat.ts line 99): the
optional chain makes it total, the outer `none` modelling `undefined`
when `choices` is empty. -/
def finishOf (result : OpenAIChatResponse) : Option (Option FinishReason) :=
  result.choices.head?.map (fun choice => choice.finish_reason)

/-- The validation `getChatResponse` performs on a parsed response body
(chat.ts lines 95-110): throw on a truthy `error` property, then require
the top choice's finish reason to be exactly `"stop"`, then log and
return the body unchanged. -/
def getChatResponseResult (result : OpenAIChatResponse) :
    Except ResponseError OpenAIChatResponse :=
  if truthyOpt result.error then
    Except.error (ResponseError.serverError (jfield result.error (cs "message")))
  else if finishOf result = some (some FinishReason.stop) then Except.ok result
  else Except.error (ResponseError.abnormalFinish (finishOf result))

/-- Boolean form of "the call returns rather than throws". -/
def responseOk (r : Except ResponseError OpenAIChatResponse) : Bool :=
  match r with
  | Except.ok _ => true
  | Except.error _ => false

/-! ### Concrete inputs used by claim witnesses and counterexamples -/

/-- Discriminator: the stream aborted with the `"Invalid response"` error. -/
def isInvalidResponseErr : Option StreamErr → Bool
  | some StreamErr.invalidResponse => true
  | _ => false

/-- The `"c"` field string of the first yielded stream event, used to
compare runs of the same bytes under different chunkings. -/
def firstEventCField (r : List Json × Option StreamErr) : Option (List Char) :=
  match r.1 with
  | item :: _ =>
    match jfield (some item) (cs "c") with
    | some (Json.str s) => some s
    | _ => none
  | [] => none

/-- UTF-8 bytes of the stream text `data: {"choices":[],"c":"é"}\n`; the
two bytes 195, 169 encode `"é"`. -/
def c1Bytes : List Nat :=
  [100, 97, 116, 97, 58, 32, 123, 34, 99, 104, 111, 105, 99, 101, 115, 34,
   58, 91, 93, 44, 34, 99, 34, 58, 34, 195, 169, 34, 125, 10]

/-- The same bytes cut after the UTF-8 lead byte 195, mid-character. -/
def c1Chunk1 : List Nat := c1Bytes.take 26

/-- The remainder of `c1Bytes`, beginning with the continuation byte 169. -/
def c1Chunk2 : List Nat := c1Bytes.drop 26

/-- The event the unpartitioned stream yields. -/
def c1ItemGood : Json :=
  Json.obj [(cs "choices", Json.arr []), (cs "c", Json.str (cs "é"))]

/-- The event the mid-character partition yields: the split character is
decoded as two replacement characters. -/
def c1ItemBad : Json :=
  Json.obj [(cs "choices", Json.arr []), (cs "c", Json.str ['\uFFFD', '\uFFFD'])]

/-- A frame that carries an `error.message` field holding the empty
string, which is falsy in JS, plus a well-formed `choices` array. -/
def c3Chunk : List Char := cs "data: \x7b\"error\":\x7b\"message\":\"\"\x7d,\"choices\":[]\x7d\n"

/-- The parse of the frame payload of `c3Chunk`. -/
def c3Item : Json :=
  Json.obj [(cs "error", Json.obj [(cs "message", Json.str [])]),
            (cs "choices", Json.arr [])]

/-- A frame with no `choices` field and a truthy `error.message`. -/
def c4Chunk : List Char := cs "data: \x7b\"error\":\x7b\"message\":\"boom\"\x7d\x7d\n"

/-- The parse of the frame payload of `c4Chunk`. -/
def c4Item : Json :=
  Json.obj [(cs "error", Json.obj [(cs "message", Json.str (cs "boom"))])]

/-- A non-streaming response whose top choice finished with `"length"`
while its message content is populated. -/
def exRespLength : OpenAIChatResponse :=
  { choices := [{ finish_reason := some FinishReason.length, index := 0,
                  message := { content := some (cs "truncated") } }],
    usage := { completion_tokens := 60, prompt_tokens := 10, total_tokens := 70 },
    error := none }

/-- A non-streaming response whose top choice finished with `"stop"` and
which carries no error field. -/
def exRespStop : OpenAIChatResponse :=
  { choices := [{ finish_reason := some FinishReason.stop, index := 0,
                  message := { content := some (cs "hello") } }],
    usage := { completion_tokens := 5, prompt_tokens := 10, total_tokens := 15 },
    error := none }

/-- A non-streaming response with an empty choices list and no error
field. -/
def exRespEmpty : OpenAIChatResponse :=
  { choices := [],
    usage := { completion_tokens := 0, prompt_tokens := 10, total_tokens := 10 },
    error := none }

/-- A three-frame stream whose middle frame signals a server error. -/
def c3wChunks : List (List Char) :=
  [cs "data: \x7b\"choices\":[]\x7d\ndata: \x7b\"error\":\x7b\"message\":\"boom\"\x7d\x7d\ndata: \x7b\"choices\":[]\x7d\n"]

/-- The matched payloads of `c3wChunks` before the error frame. -/
def c3wPre : List (List Char) := [cs "\x7b\"choices\":[]\x7d"]

/-- The matched payloads of `c3wChunks` after the error frame. -/
def c3wPost : List (List Char) := [cs "\x7b\"choices\":[]\x7d"]

/-- The error frame payload of `c3wChunks`. -/
def c3wErrPayload : List Char := cs "\x7b\"error\":\x7b\"message\":\"boom\"\x7d\x7d"

/-- The parse of `c3wErrPayload`. -/
def c3wErrItem : Json :=
  Json.obj [(cs "error", Json.obj [(cs "message", Json.str (cs "boom"))])]

/-- A one-frame stream whose frame has `choices` set to `null`. -/
def c4wChunks : List (List Char) := [cs "data: \x7b\"choices\":null\x7d\n"]

/-- The single matched payload of `c4wChunks`. -/
def c4wPayload : List Char := cs "\x7b\"choices\":null\x7d"

/-- The parse of `c4wPayload`. -/
def c4wItem : Json := Json.obj [(cs "choices", Json.null)]

/-! ### Lemmas about the unfinished-line buffer and line splitting -/

theorem notNl_eq_true {c : Char} : notNl c = true ↔ c ≠ '\n' := by
  simp [notNl]

theorem takeWhile_append_all {α : Type} (p : α → Bool) (l₁ l₂ : List α)
    (h : l₁.all p = true) : (l₁ ++ l₂).takeWhile p = l₁ ++ l₂.takeWhile p := by
  induction l₁ with
  | nil => simp
  | cons a t ih =>
    simp only [List.all_cons, Bool.and_eq_true] at h
    simp [List.takeWhile_cons, h.1, ih h.2]

theorem dropWhile_append_all {α : Type} (p : α → Bool) (l₁ l₂ : List α)
    (h : l₁.all p = true) : (l₁ ++ l₂).dropWhile p = l₂.dropWhile p := by
  induction l₁ with
  | nil => simp
  | cons a t ih =>
    simp only [List.all_cons, Bool.and_eq_true] at h
    simp [List.dropWhile_cons, h.1, ih h.2]

theorem takeWhile_append_stop {α : Type} (p : α → Bool) (l₁ l₂ : List α)
    (h : l₁.all p = false) : (l₁ ++ l₂).takeWhile p = l₁.takeWhile p := by
  induction l₁ with
  | nil => simp at h
  | cons a t ih =>
    by_cases hpa : p a = true
    · simp only [List.all_cons, hpa, Bool.true_and] at h
      simp [List.takeWhile_cons, hpa, ih h]
    · simp only [Bool.not_eq_true] at hpa
      simp [List.takeWhile_cons, hpa]

theorem dropWhile_append_stop {α : Type} (p : α → Bool) (l₁ l₂ : List α)
    (h : l₁.all p = false) : (l₁ ++ l₂).dropWhile p = l₁.dropWhile p ++ l₂ := by
  induction l₁ with
  | nil => simp at h
  | cons a t ih =>
    by_cases hpa : p a = true
    · simp only [List.all_cons, hpa, Bool.true_and] at h
      simp [List.dropWhile_cons, hpa, ih h]
    · simp only [Bool.not_eq_true] at hpa
      simp [List.dropWhile_cons, hpa]

theorem headOf_append_unfinishedOf (w : List Char) :
    headOf w ++ unfinishedOf w = w := by
  unfold headOf unfinishedOf
  rw [← List.reverse_append, List.takeWhile_append_dropWhile, List.reverse_reverse]

theorem nl_not_mem_unfinishedOf (w : List Char) : '\n' ∉ unfinishedOf w := by
  unfold unfinishedOf
  intro h
  rw [List.mem_reverse] at h
  have := List.mem_takeWhile_imp h
  rw [notNl_eq_true] at this
  exact this rfl

theorem all_notNl_of_not_mem {w : List Char} (h : '\n' ∉ w) :
    w.all notNl = true := by
  rw [List.all_eq_true]
  intro c hc
  rw [notNl_eq_true]
  intro hEq
  exact h (hEq ▸ hc)

theorem all_notNl_eq_false_of_mem {w : List Char} (h : '\n' ∈ w) :
    w.all notNl = false := by
  rw [Bool.eq_false_iff]
  intro hall
  rw [List.all_eq_true] at hall
  have := hall '\n' h
  rw [notNl_eq_true] at this
  exact this rfl

theorem unfinishedOf_eq_self {w : List Char} (h : '\n' ∉ w) : unfinishedOf w = w := by
  unfold unfinishedOf
  have hall : w.reverse.all notNl = true :=
    all_notNl_of_not_mem (by simpa using h)
  have htw := takeWhile_append_all notNl w.reverse [] hall
  simp only [List.append_nil, List.takeWhile_nil] at htw
  rw [htw, List.reverse_reverse]

theorem headOf_eq_nil {w : List Char} (h : '\n' ∉ w) : headOf w = [] := by
  unfold headOf
  have hall : w.reverse.all notNl = true :=
    all_notNl_of_not_mem (by simpa using h)
  have hdw := dropWhile_append_all notNl w.reverse [] hall
  simp only [List.append_nil, List.dropWhile_nil] at hdw
  rw [hdw]
  rfl

theorem unfinishedOf_append_no_nl (a b : List Char) (h : '\n' ∉ b) :
    unfinishedOf (a ++ b) = unfinishedOf a ++ b := by
  unfold unfinishedOf
  rw [List.reverse_append,
    takeWhile_append_all _ _ _ (all_notNl_of_not_mem (by simpa using h)),
    List.reverse_append, List.reverse_reverse]

theorem headOf_append_no_nl (a b : List Char) (h : '\n' ∉ b) :
    headOf (a ++ b) = headOf a := by
  unfold headOf
  rw [List.reverse_append,
    dropWhile_append_all _ _ _ (all_notNl_of_not_mem (by simpa using h))]

theorem unfinishedOf_append_nl (a b : List Char) (h : '\n' ∈ b) :
    unfinishedOf (a ++ b) = unfinishedOf b := by
  unfold unfinishedOf
  rw [List.reverse_append,
    takeWhile_append_stop _ _ _ (all_notNl_eq_false_of_mem (by simpa using h))]

theorem headOf_append_nl (a b : List Char) (h : '\n' ∈ b) :
    headOf (a ++ b) = a ++ headOf b := by
  unfold headOf
  rw [List.reverse_append,
    dropWhile_append_stop _ _ _ (all_notNl_eq_false_of_mem (by simpa using h)),
    List.reverse_append, List.reverse_reverse]

theorem dropWhile_notNl_nil_or_head (l : List Char) :
    l.dropWhile notNl = [] ∨ ∃ t, l.dropWhile notNl = '\n' :: t := by
  induction l with
  | nil => exact Or.inl rfl
  | cons a t ih =>
    by_cases ha : a = '\n'
    · subst ha
      exact Or.inr ⟨t, by simp [List.dropWhile_cons, notNl]⟩
    · have : notNl a = true := notNl_eq_true.mpr ha
      simpa [List.dropWhile_cons, this] using ih

theorem headOf_ends_nl (w : List Char) :
    headOf w = [] ∨ (headOf w).getLast? = some '\n' := by
  unfold headOf
  rcases dropWhile_notNl_nil_or_head w.reverse with h | ⟨t, h⟩
  · exact Or.inl (by rw [h]; rfl)
  · right
    rw [h, List.getLast?_reverse]
    rfl

theorem splitNl_ne_nil (w : List Char) : splitNl w ≠ [] := by
  cases w with
  | nil => simp [splitNl]
  | cons c t =>
    by_cases hc : c = '\n'
    · simp [splitNl, hc]
    · cases h : splitNl t with
      | nil => simp [splitNl, hc, h]
      | cons l ls => simp [splitNl, hc, h]

theorem splitNl_cons_nl (t : List Char) : splitNl ('\n' :: t) = [] :: splitNl t := by
  simp [splitNl]

theorem splitNl_cons_other (c : Char) (t : List Char) (hc : c ≠ '\n') :
    ∃ l ls, splitNl t = l :: ls ∧ splitNl (c :: t) = (c :: l) :: ls := by
  cases h : splitNl t with
  | nil => exact absurd h (splitNl_ne_nil t)
  | cons l ls => exact ⟨l, ls, rfl, by simp [splitNl, hc, h]⟩

theorem splitNl_line_append (a b : List Char) (ha : '\n' ∉ a) :
    splitNl (a ++ '\n' :: b) = a :: splitNl b := by
  induction a with
  | nil => simp [splitNl_cons_nl]
  | cons c t ih =>
    have hc : c ≠ '\n' := fun hEq => ha (hEq ▸ List.mem_cons_self c t)
    have ht : '\n' ∉ t := fun hm => ha (List.mem_cons_of_mem c hm)
    obtain ⟨l, ls, hsplit, hcons⟩ := splitNl_cons_other c (t ++ '\n' :: b) hc
    rw [List.cons_append, hcons]
    rw [ih ht] at hsplit
    cases hsplit
    rfl

theorem splitNl_no_nl (w : List Char) : ∀ l ∈ splitNl w, '\n' ∉ l := by
  induction w with
  | nil =>
    intro l hl
    simp [splitNl] at hl
    simp [hl]
  | cons c t ih =>
    by_cases hc : c = '\n'
    · subst hc
      rw [splitNl_cons_nl]
      intro l hl
      rcases List.mem_cons.mp hl with h | h
      · simp [h]
      · exact ih l h
    · obtain ⟨l₀, ls, hsplit, hcons⟩ := splitNl_cons_other c t hc
      rw [hcons]
      intro l hl
      rcases List.mem_cons.mp hl with h | h
      · subst h
        intro hm
        rcases List.mem_cons.mp hm with h | h
        · exact hc h.symm
        · exact ih l₀ (hsplit ▸ List.mem_cons_self l₀ ls) h
      · exact ih l (hsplit ▸ List.mem_cons_of_mem l₀ h)

/-- JS `array.join("\n")`: the inverse of `splitNl`, used to state that
splitting loses no byte. -/
def joinNl : List (List Char) → List Char
  | [] => []
  | [l] => l
  | l :: ls => l ++ '\n' :: joinNl ls

theorem joinNl_cons_cons (l l₂ : List Char) (ls : List (List Char)) :
    joinNl (l :: l₂ :: ls) = l ++ '\n' :: joinNl (l₂ :: ls) := rfl

theorem joinNl_splitNl (w : List Char) : joinNl (splitNl w) = w := by
  induction w with
  | nil => rfl
  | cons c t ih =>
    by_cases hc : c = '\n'
    · subst hc
      rw [splitNl_cons_nl]
      cases h : splitNl t with
      | nil => exact absurd h (splitNl_ne_nil t)
      | cons l ls =>
        rw [joinNl_cons_cons, ← h, ih]
        rfl
    · obtain ⟨l₀, ls, hsplit, hcons⟩ := splitNl_cons_other c t hc
      rw [hcons]
      cases ls with
      | nil =>
        show c :: l₀ = c :: t
        have : joinNl (splitNl t) = t := ih
        rw [hsplit] at this
        exact congrArg (c :: ·) this
      | cons l₁ ls₂ =>
        rw [joinNl_cons_cons]
        have : joinNl (splitNl t) = t := ih
        rw [hsplit, joinNl_cons_cons] at this
        show c :: (l₀ ++ '\n' :: joinNl (l₁ :: ls₂)) = c :: t
        rw [this]

theorem lineNonempty_eq_true {l : List Char} : lineNonempty l = true ↔ l ≠ [] := by
  cases l <;> simp [lineNonempty]

/-- Decomposition of a nonempty newline-terminated text into its first
line, the terminator, and a shorter newline-terminated remainder. -/
theorem term_decompose (H : List Char) (hlast : H.getLast? = some '\n') :
    ∃ line H₂, H = line ++ '\n' :: H₂ ∧ '\n' ∉ line ∧
      (H₂ = [] ∨ H₂.getLast? = some '\n') ∧ H₂.length < H.length := by
  have hne : H ≠ [] := by
    intro h
    rw [h] at hlast
    exact Option.noConfusion hlast
  have hmem : '\n' ∈ H := by
    obtain ⟨hne2, hEq⟩ := List.mem_getLast?_eq_getLast (l := H) (x := '\n') (by simp [hlast])
    rw [hEq]
    exact List.getLast_mem hne2
  have hsplit : H.takeWhile notNl ++ H.dropWhile notNl = H :=
    List.takeWhile_append_dropWhile notNl H
  rcases dropWhile_notNl_nil_or_head H with hnil | ⟨t, ht⟩
  · rw [hnil, List.append_nil] at hsplit
    exfalso
    have := List.mem_takeWhile_imp (hsplit ▸ hmem)
    rw [notNl_eq_true] at this
    exact this rfl
  · refine ⟨H.takeWhile notNl, t, ?_, ?_, ?_, ?_⟩
    · rw [← ht, hsplit]
    · intro hm
      have := List.mem_takeWhile_imp hm
      rw [notNl_eq_true] at this
      exact this rfl
    · cases t with
      | nil => exact Or.inl rfl
      | cons a t2 =>
        right
        have hlast2 : H.getLast? = (a :: t2).getLast? := by
          conv_lhs => rw [← hsplit, ht]
          rw [List.getLast?_append_cons]
          exact List.getLast?_cons_cons
        rw [← hlast2, hlast]
    · have hlen : H.length = (H.takeWhile notNl).length + 1 + t.length := by
        conv_lhs => rw [← hsplit, ht]
        simp [List.length_append]
        omega
      omega

/-- Splitting a newline-terminated prefix off a window splits its lines
off the window's lines. -/
theorem wholeLines_append_term : ∀ (H u z : List Char),
    (H = [] ∨ H.getLast? = some '\n') → '\n' ∉ u →
    wholeLinesOf H ++ wholeLinesOf (u ++ z) = wholeLinesOf (H ++ (u ++ z))
  | H, u, z, hH, hu => by
    rcases hH with hnil | hlast
    · subst hnil
      simp [wholeLinesOf, splitNl, lineNonempty]
    · obtain ⟨line, H₂, hdec, hline, hH₂, hlen⟩ := term_decompose H hlast
      have ih := wholeLines_append_term H₂ u z hH₂ hu
      subst hdec
      rw [List.append_assoc, List.cons_append]
      unfold wholeLinesOf at ih ⊢
      rw [splitNl_line_append line H₂ hline,
        splitNl_line_append line (H₂ ++ (u ++ z)) hline,
        List.filter_cons, List.filter_cons]
      by_cases hline0 : line = []
      · subst hline0
        simp only [show lineNonempty [] = false from rfl, Bool.false_eq_true, if_false]
        exact ih
      · rw [if_pos (lineNonempty_eq_true.mpr hline0),
          if_pos (lineNonempty_eq_true.mpr hline0), List.cons_append, ih]
  termination_by H u z _ _ => H.length

/-- Processing the buffered suffix together with later input yields the
same whole lines as processing the whole text at once. -/
theorem lines_compose (a r : List Char) :
    wholeLinesOf (headOf a) ++ wholeLinesOf (headOf (unfinishedOf a ++ r)) =
      wholeLinesOf (headOf (a ++ r)) := by
  by_cases hr : '\n' ∈ r
  · rw [headOf_append_nl _ _ hr, headOf_append_nl _ _ hr]
    have hterm := wholeLines_append_term (headOf a) (unfinishedOf a) (headOf r)
      (headOf_ends_nl a) (nl_not_mem_unfinishedOf a)
    rw [hterm, ← List.append_assoc, headOf_append_unfinishedOf]
  · have hnone : '\n' ∉ unfinishedOf a ++ r := by
      intro hm
      rcases List.mem_append.mp hm with h | h
      · exact nl_not_mem_unfinishedOf a h
      · exact hr h
    rw [headOf_eq_nil hnone, headOf_append_no_nl a r hr]
    simp [wholeLinesOf, splitNl, lineNonempty]

/-- The buffered suffix carries forward: re-buffering commutes with
appending later input. -/
theorem unfinished_compose (a r : List Char) :
    unfinishedOf (unfinishedOf a ++ r) = unfinishedOf (a ++ r) := by
  by_cases hr : '\n' ∈ r
  · rw [unfinishedOf_append_nl _ _ hr, unfinishedOf_append_nl _ _ hr]
  · rw [unfinishedOf_append_no_nl _ _ hr, unfinishedOf_append_no_nl _ _ hr,
      unfinishedOf_eq_self (nl_not_mem_unfinishedOf a)]

/-- Master lemma: the read loop started on a newline-free buffer produces
exactly the whole lines (and their matched payloads) of the text up to
the last terminator of `buffer ++ flatten chunks`, and ends holding the
text after that terminator. -/
theorem readLoop_eq (chunks : List (List Char)) : ∀ (buf : List Char), '\n' ∉ buf →
    readLoop buf chunks =
      (wholeLinesOf (headOf (buf ++ chunks.flatten)),
       (wholeLinesOf (headOf (buf ++ chunks.flatten))).filterMap matchDataLine,
       unfinishedOf (buf ++ chunks.flatten)) := by
  induction chunks with
  | nil =>
    intro buf hbuf
    simp only [readLoop, List.flatten_nil, List.append_nil]
    rw [headOf_eq_nil hbuf, unfinishedOf_eq_self hbuf]
    simp [wholeLinesOf, splitNl, lineNonempty]
  | cons c rest ih =>
    intro buf hbuf
    simp only [readLoop, chunkStep, List.flatten_cons]
    rw [ih (unfinishedOf (buf ++ c)) (nl_not_mem_unfinishedOf _)]
    have hlines := lines_compose (buf ++ c) rest.flatten
    have hbuf2 := unfinished_compose (buf ++ c) rest.flatten
    rw [List.append_assoc] at hlines hbuf2
    rw [hlines, hbuf2, ← List.filterMap_append, hlines]

/-- The matched payloads of a chunked stream depend only on the
concatenated text: they are the matches of the whole lines up to its
last terminator. -/
theorem streamMatches_eq (chunks : List (List Char)) :
    streamMatches chunks =
      (wholeLinesOf (headOf chunks.flatten)).filterMap matchDataLine := by
  unfold streamMatches
  rw [readLoop_eq chunks [] (by simp)]
  simp

/-- Splitting the match list after a prefix of yielded frames splits the
run: the prefix contributes its items, the rest runs unchanged. -/
theorem runMatches_append_of_ok (ms₁ ms₂ : List (List Char))
    (h : ms₁.all processOk = true) :
    runMatches (ms₁ ++ ms₂) =
      (ms₁.filterMap (fun m => (processMatch m).toOption) ++ (runMatches ms₂).1,
       (runMatches ms₂).2) := by
  induction ms₁ with
  | nil => simp [runMatches]
  | cons m t ih =>
    simp only [List.all_cons, Bool.and_eq_true] at h
    obtain ⟨hm, ht⟩ := h
    unfold processOk at hm
    cases hpm : processMatch m with
    | error e => rw [hpm] at hm; simp at hm
    | ok item =>
      simp only [List.cons_append, runMatches, hpm, List.filterMap_cons,
        Except.toOption, List.append_eq, ih ht]

/-- When the parsed item carries no truthy `error.message`, processing a
match reduces to the choices-shape check. -/
theorem processMatch_eq_choices {m : List Char} {item : Json}
    (hp : Json.parse m = some item) (ht : truthyOpt (errMessageOf item) = false) :
    processMatch m = processChoices item := by
  simp only [processMatch, hp]
  cases he : errMessageOf item with
  | none => rfl
  | some v =>
    have hv : v.truthy = false := by rw [he] at ht; exact ht
    simp [hv]

/-- When the parsed item carries a truthy `error.message`, processing a
match throws the server-signalled error carrying that value. -/
theorem processMatch_eq_serverError {m : List Char} {item v : Json}
    (hp : Json.parse m = some item) (he : errMessageOf item = some v)
    (hv : v.truthy = true) :
    processMatch m = Except.error (StreamErr.serverError v) := by
  simp only [processMatch, hp, he]
  simp [hv]

/-! ### Claim theorems -/

/-- C7: in both `getChatResponse` and `getChatStream`, every payload
field left unspecified in the config equals its documented default
(temperature 0.7, top_p 1, zero penalties, max_tokens 60, empty stop
string, and no response_format or seed), every supplied field equals the
supplied value, and merging an empty config equals merging no config, so
repeated calls with the same messages and no overrides build identical
bodies. -/
theorem claim_C7_payload_defaults (m : List ChatMessage) (c : PayloadConfig) :
    getChatResponsePayload m none =
      { messages := m, temperature := 0.7, top_p := 1, frequency_penalty := 0,
        presence_penalty := 0, max_tokens := 60, stop := StopValue.str [],
        response_format := none, seed := none } ∧
    getChatStreamPayload m none =
      { messages := m, temperature := 0.7, top_p := 1, frequency_penalty := 0,
        presence_penalty := 0, max_tokens := 60, stop := StopValue.str [],
        response_format := none, seed := none } ∧
    getChatResponsePayload m (some {}) = getChatResponsePayload m none ∧
    getChatStreamPayload m (some {}) = getChatStreamPayload m none ∧
    (getChatResponsePayload m (some c)).messages = c.messages.getD m ∧
    (getChatResponsePayload m (some c)).temperature = c.temperature.getD 0.7 ∧
    (getChatResponsePayload m (some c)).top_p = c.top_p.getD 1 ∧
    (getChatResponsePayload m (some c)).frequency_penalty = c.frequency_penalty.getD 0 ∧
    (getChatResponsePayload m (some c)).presence_penalty = c.presence_penalty.getD 0 ∧
    (getChatResponsePayload m (some c)).max_tokens = c.max_tokens.getD 60 ∧
    (getChatResponsePayload m (some c)).stop = c.stop.getD (StopValue.str []) ∧
    (getChatResponsePayload m (some c)).response_format = c.response_format ∧
    (getChatResponsePayload m (some c)).seed = c.seed ∧
    (getChatStreamPayload m (some c)).messages = c.messages.getD m ∧
    (getChatStreamPayload m (some c)).temperature = c.temperature.getD 0.7 ∧
    (getChatStreamPayload m (some c)).top_p = c.top_p.getD 1 ∧
    (getChatStreamPayload m (some c)).frequency_penalty = c.frequency_penalty.getD 0 ∧
    (getChatStreamPayload m (some c)).presence_penalty = c.presence_penalty.getD 0 ∧
    (getChatStreamPayload m (some c)).max_tokens = c.max_tokens.getD 60 ∧
    (getChatStreamPayload m (some c)).stop = c.stop.getD (StopValue.str []) ∧
    (getChatStreamPayload m (some c)).response_format = c.response_format ∧
    (getChatStreamPayload m (some c)).seed = c.seed :=
  ⟨rfl, rfl, rfl, rfl, rfl, rfl, rfl, rfl, rfl, rfl, rfl, rfl, rfl, rfl, rfl,
   rfl, rfl, rfl, rfl, rfl, rfl, rfl⟩

/-- C9: a `messages` field present in the config takes precedence over
the messages passed as the first argument, in both request builders. -/
theorem claim_C9_config_precedence (m : List ChatMessage) (c : PayloadConfig)
    (ms : List ChatMessage) (h : c.messages = some ms) :
    (getChatResponsePayload m (some c)).messages = ms ∧
    (getChatStreamPayload m (some c)).messages = ms := by
  unfold getChatResponsePayload getChatStreamPayload
  simp [h]

/-- Witness for C9 at a concrete config whose `messages` field replaces
the positional argument. -/
theorem claim_C9_config_precedence_witness :
    (PayloadConfig.mk (some [ChatMessage.mk ChatRole.system (MessageContent.str (cs "b"))])
        none none none none none none none none).messages =
      some [ChatMessage.mk ChatRole.system (MessageContent.str (cs "b"))] ∧
    (getChatResponsePayload [ChatMessage.mk ChatRole.user (MessageContent.str (cs "a"))]
        (some (PayloadConfig.mk
          (some [ChatMessage.mk ChatRole.system (MessageContent.str (cs "b"))])
          none none none none none none none none))).messages =
      [ChatMessage.mk ChatRole.system (MessageContent.str (cs "b"))] ∧
    (getChatStreamPayload [ChatMessage.mk ChatRole.user (MessageContent.str (cs "a"))]
        (some (PayloadConfig.mk
          (some [ChatMessage.mk ChatRole.system (MessageContent.str (cs "b"))])
          none none none none none none none none))).messages =
      [ChatMessage.mk ChatRole.system (MessageContent.str (cs "b"))] := by
  refine ⟨rfl, ?_⟩
  exact claim_C9_config_precedence _ _ _ rfl

/-- C5: a non-streaming response whose top choice's finish reason is not
exactly `"stop"` makes the call fail rather than return, even when the
message content is populated; a response whose top finish reason is
`"stop"` and which has no error field is returned unchanged. -/
theorem claim_C5_abnormal_finish (result : OpenAIChatResponse) :
    ((finishOf result == some (some FinishReason.stop)) = false →
      responseOk (getChatResponseResult result) = false) ∧
    (finishOf result = some (some FinishReason.stop) → result.error = none →
      getChatResponseResult result = Except.ok result) := by
  constructor
  · intro hne
    have hne2 : ¬ finishOf result = some (some FinishReason.stop) := by
      intro h
      rw [h] at hne
      simp at hne
    unfold getChatResponseResult responseOk
    by_cases herr : truthyOpt result.error = true
    · simp [herr]
    · rw [Bool.not_eq_true] at herr
      simp [herr, hne2]
  · intro hfin herr
    unfold getChatResponseResult
    rw [herr, hfin]
    simp [truthyOpt]

/-- Witness for C5: a `"length"`-finished response with populated content
fails; a `"stop"`-finished response is returned. -/
theorem claim_C5_abnormal_finish_witness :
    (finishOf exRespLength == some (some FinishReason.stop)) = false ∧
    responseOk (getChatResponseResult exRespLength) = false ∧
    finishOf exRespStop = some (some FinishReason.stop) ∧
    getChatResponseResult exRespStop = Except.ok exRespStop :=
  ⟨rfl, (claim_C5_abnormal_finish exRespLength).1 rfl, rfl,
   (claim_C5_abnormal_finish exRespStop).2 rfl rfl⟩

/-- C10: on a response with an empty choices list (and no truthy error
field) the top-choice lookup is total and yields absence, and the call
fails through the finish-reason check carrying that absence — no crash,
no other path. -/
theorem claim_C10_empty_choices (result : OpenAIChatResponse)
    (hc : result.choices = []) (herr : truthyOpt result.error = false) :
    finishOf result = none ∧
    getChatResponseResult result =
      Except.error (ResponseError.abnormalFinish none) := by
  have hf : finishOf result = none := by
    unfold finishOf
    rw [hc]
    rfl
  refine ⟨hf, ?_⟩
  unfold getChatResponseResult
  rw [hf, herr]
  simp

/-- Witness for C10 at a concrete empty-choices response. -/
theorem claim_C10_empty_choices_witness :
    exRespEmpty.choices = [] ∧
    truthyOpt exRespEmpty.error = false ∧
    finishOf exRespEmpty = none ∧
    getChatResponseResult exRespEmpty =
      Except.error (ResponseError.abnormalFinish none) :=
  ⟨rfl, rfl, (claim_C10_empty_choices exRespEmpty rfl rfl).1,
   (claim_C10_empty_choices exRespEmpty rfl rfl).2⟩

/-- C2: after processing any sequence of chunks, the unfinished-line
buffer holds exactly the text after the last line terminator seen so
far; the processed whole lines are exactly the nonempty terminator-free
segments of the text up to and including that terminator (so no partial
line is ever processed or yielded); and no character is lost or
duplicated at the buffer/chunk boundary: rejoining the split segments
with terminators rebuilds the processed text, and the processed text
plus the buffer rebuild the whole input. -/
theorem claim_C2_buffer_invariants (chunks : List (List Char)) :
    readLoop [] chunks =
      (wholeLinesOf (headOf chunks.flatten),
       (wholeLinesOf (headOf chunks.flatten)).filterMap matchDataLine,
       unfinishedOf chunks.flatten) ∧
    headOf chunks.flatten ++ unfinishedOf chunks.flatten = chunks.flatten ∧
    joinNl (splitNl (headOf chunks.flatten)) = headOf chunks.flatten ∧
    (wholeLinesOf (headOf chunks.flatten)).all
      (fun l => lineNonempty l && !l.contains '\n') = true := by
  refine ⟨?_, headOf_append_unfinishedOf _, joinNl_splitNl _, ?_⟩
  · have h := readLoop_eq chunks [] (by simp)
    simpa using h
  · rw [List.all_eq_true]
    intro l hl
    unfold wholeLinesOf at hl
    have hmem := List.mem_of_mem_filter hl
    have hfilt := List.of_mem_filter hl
    have hnl := splitNl_no_nl (headOf chunks.flatten) l hmem
    rw [Bool.and_eq_true]
    exact ⟨hfilt, by simpa using hnl⟩

/-- C8: when the transport signals end-of-stream while the buffer is
nonempty, the residue is dropped: appending a final terminator-free
chunk changes neither the matched payloads nor the yielded events nor
the aborting error, and the residue ends up in the abandoned buffer. -/
theorem claim_C8_residue_dropped (chunks : List (List Char)) (t : List Char)
    (h : '\n' ∉ t) :
    streamMatches (chunks ++ [t]) = streamMatches chunks ∧
    getChatStreamRun (chunks ++ [t]) = getChatStreamRun chunks ∧
    (readLoop [] (chunks ++ [t])).2.2 = unfinishedOf chunks.flatten ++ t := by
  have hm : streamMatches (chunks ++ [t]) = streamMatches chunks := by
    rw [streamMatches_eq, streamMatches_eq, List.flatten_append]
    simp only [List.flatten_cons, List.flatten_nil, List.append_nil]
    rw [headOf_append_no_nl _ _ h]
  refine ⟨hm, ?_, ?_⟩
  · unfold getChatStreamRun
    rw [hm]
  · rw [readLoop_eq _ [] (by simp)]
    simp only [List.nil_append, List.flatten_append, List.flatten_cons,
      List.flatten_nil, List.append_nil]
    exact unfinishedOf_append_no_nl _ _ h

/-- Witness for C8: a stream whose final chunk has no trailing
terminator; the truncated second frame is never parsed or yielded. -/
theorem claim_C8_residue_dropped_witness :
    ('\n' ∉ cs "data: \x7b\"cho") ∧
    (streamMatches ([cs "data: \x7b\"choices\":[]\x7d\n"] ++ [cs "data: \x7b\"cho"]) =
        streamMatches [cs "data: \x7b\"choices\":[]\x7d\n"] ∧
      getChatStreamRun ([cs "data: \x7b\"choices\":[]\x7d\n"] ++ [cs "data: \x7b\"cho"]) =
        getChatStreamRun [cs "data: \x7b\"choices\":[]\x7d\n"] ∧
      (readLoop [] ([cs "data: \x7b\"choices\":[]\x7d\n"] ++ [cs "data: \x7b\"cho"])).2.2 =
        unfinishedOf (List.flatten [cs "data: \x7b\"choices\":[]\x7d\n"]) ++ cs "data: \x7b\"cho") :=
  ⟨by decide, claim_C8_residue_dropped [cs "data: \x7b\"choices\":[]\x7d\n"]
    (cs "data: \x7b\"cho") (by decide)⟩

/-- C6: a complete line that does not match `/^data: (\{.*\})$/`
contributes no matched payload: removing it from the line sequence
changes neither the matches nor the subsequent run, so it yields no
event, raises no error, and processing continues with the other lines. -/
theorem claim_C6_nonframe_discarded (ls₁ ls₂ : List (List Char)) (l : List Char)
    (h : matchDataLine l = none) :
    (ls₁ ++ l :: ls₂).filterMap matchDataLine =
      (ls₁ ++ ls₂).filterMap matchDataLine ∧
    runMatches ((ls₁ ++ l :: ls₂).filterMap matchDataLine) =
      runMatches ((ls₁ ++ ls₂).filterMap matchDataLine) := by
  have heq : (ls₁ ++ l :: ls₂).filterMap matchDataLine =
      (ls₁ ++ ls₂).filterMap matchDataLine := by
    simp [List.filterMap_append, List.filterMap_cons, h]
  exact ⟨heq, by rw [heq]⟩

/-- Witness for C6: a comment line between two frames is discarded. -/
theorem claim_C6_nonframe_discarded_witness :
    matchDataLine (cs ": keep-alive") = none ∧
    (([cs "data: \x7b\"choices\":[]\x7d"] ++ cs ": keep-alive" :: [cs "data: \x7b\"x\":1\x7d"]).filterMap
        matchDataLine =
      ([cs "data: \x7b\"choices\":[]\x7d"] ++ [cs "data: \x7b\"x\":1\x7d"]).filterMap matchDataLine ∧
    runMatches (([cs "data: \x7b\"choices\":[]\x7d"] ++ cs ": keep-alive" ::
        [cs "data: \x7b\"x\":1\x7d"]).filterMap matchDataLine) =
      runMatches (([cs "data: \x7b\"choices\":[]\x7d"] ++ [cs "data: \x7b\"x\":1\x7d"]).filterMap
        matchDataLine)) :=
  ⟨rfl, claim_C6_nonframe_discarded [cs "data: \x7b\"choices\":[]\x7d"]
    [cs "data: \x7b\"x\":1\x7d"] (cs ": keep-alive") rfl⟩

/-- Counterexample to C3 as stated: the frame
`data: {"error":{"message":""},"choices":[]}` carries an `error.message`
field, yet the generator does not throw — the empty string is falsy, so
the frame is yielded as a regular event and the stream completes without
error. -/
theorem claim_C3_counterexample :
    errMessageOf c3Item = some (Json.str []) ∧
    Json.parse (cs "\x7b\"error\":\x7b\"message\":\"\"\x7d,\"choices\":[]\x7d") = some c3Item ∧
    getChatStreamRun [c3Chunk] = ([c3Item], none) :=
  ⟨rfl, rfl, rfl⟩

/-- C3 (amended): if a parsed frame carries a truthy `error.message`
value (in particular a non-empty string), the generator throws the
server error carrying that value and yields nothing further; the events
of the preceding frames remain yielded. -/
theorem claim_C3_server_error (chunks ms₁ ms₂ : List (List Char))
    (m : List Char) (item v : Json)
    (hsplit : streamMatches chunks = ms₁ ++ m :: ms₂)
    (hok : ms₁.all processOk = true)
    (hp : Json.parse m = some item)
    (he : errMessageOf item = some v)
    (hv : v.truthy = true) :
    getChatStreamRun chunks =
      (ms₁.filterMap (fun x => (processMatch x).toOption),
       some (StreamErr.serverError v)) := by
  unfold getChatStreamRun
  rw [hsplit, runMatches_append_of_ok _ _ hok]
  have hm := processMatch_eq_serverError hp he hv
  simp [runMatches, hm]

/-- Witness for the amended C3: a three-frame stream whose middle frame
signals `boom`; exactly the first frame's event is yielded, then the
server error aborts the stream. -/
theorem claim_C3_server_error_witness :
    streamMatches c3wChunks = c3wPre ++ c3wErrPayload :: c3wPost ∧
    c3wPre.all processOk = true ∧
    Json.parse c3wErrPayload = some c3wErrItem ∧
    errMessageOf c3wErrItem = some (Json.str (cs "boom")) ∧
    (Json.str (cs "boom")).truthy = true ∧
    getChatStreamRun c3wChunks =
      (c3wPre.filterMap (fun x => (processMatch x).toOption),
       some (StreamErr.serverError (Json.str (cs "boom")))) :=
  ⟨rfl, rfl, rfl, rfl, rfl,
   claim_C3_server_error c3wChunks c3wPre c3wPost c3wErrPayload c3wErrItem
     (Json.str (cs "boom")) rfl rfl rfl rfl rfl⟩

/-- Counterexample to C4 as stated: the frame
`data: {"error":{"message":"boom"}}` has no `choices` field, yet the
stream does not fail with the `"Invalid response"` error — the truthy
`error.message` is checked first, so it fails with the server error
`boom` instead. -/
theorem claim_C4_counterexample :
    Json.parse (cs "\x7b\"error\":\x7b\"message\":\"boom\"\x7d\x7d") = some c4Item ∧
    jfield (some c4Item) (cs "choices") = none ∧
    getChatStreamRun [c4Chunk] =
      ([], some (StreamErr.serverError (Json.str (cs "boom")))) ∧
    isInvalidResponseErr (getChatStreamRun [c4Chunk]).2 = false :=
  ⟨rfl, rfl, rfl, rfl⟩

/-- C4 (amended): on a parsed frame carrying no truthy `error.message`,
the stream aborts with the `"Invalid response"` error exactly when the
frame's `choices` field is not an array, and otherwise yields the parsed
frame and continues; earlier frames' events remain yielded. -/
theorem claim_C4_invalid_response (chunks ms₁ ms₂ : List (List Char))
    (m : List Char) (item : Json)
    (hsplit : streamMatches chunks = ms₁ ++ m :: ms₂)
    (hok : ms₁.all processOk = true)
    (hp : Json.parse m = some item)
    (hterr : truthyOpt (errMessageOf item) = false) :
    getChatStreamRun chunks =
      (if choicesIsArray item then
        (ms₁.filterMap (fun x => (processMatch x).toOption) ++
          item :: (runMatches ms₂).1, (runMatches ms₂).2)
      else
        (ms₁.filterMap (fun x => (processMatch x).toOption),
         some StreamErr.invalidResponse)) := by
  unfold getChatStreamRun
  rw [hsplit, runMatches_append_of_ok _ _ hok]
  have hm := processMatch_eq_choices hp hterr
  by_cases hc : choicesIsArray item = true
  · simp [runMatches, hm, processChoices, hc]
  · rw [Bool.not_eq_true] at hc
    simp [runMatches, hm, processChoices, hc]

/-- Witness for the amended C4: a single frame with `choices: null`
aborts the stream with the `"Invalid response"` error and yields no
event. -/
theorem claim_C4_invalid_response_witness :
    streamMatches c4wChunks = [] ++ c4wPayload :: [] ∧
    (([] : List (List Char)).all processOk = true) ∧
    Json.parse c4wPayload = some c4wItem ∧
    truthyOpt (errMessageOf c4wItem) = false ∧
    getChatStreamRun c4wChunks =
      (if choicesIsArray c4wItem then
        (([] : List (List Char)).filterMap (fun x => (processMatch x).toOption) ++
          c4wItem :: (runMatches []).1, (runMatches []).2)
      else
        (([] : List (List Char)).filterMap (fun x => (processMatch x).toOption),
         some StreamErr.invalidResponse)) :=
  ⟨rfl, rfl, rfl, rfl,
   claim_C4_invalid_response c4wChunks [] [] c4wPayload c4wItem rfl rfl rfl rfl⟩

/-- The decoded-text pipeline is chunking-invariant: two chunkings of
the same text give the same events and the same outcome.  The C1 failure
below is therefore purely the per-chunk byte decoding of chat.ts
line 163. -/
theorem getChatStreamRun_depends_on_flatten (c₁ c₂ : List (List Char))
    (h : c₁.flatten = c₂.flatten) : getChatStreamRun c₁ = getChatStreamRun c₂ := by
  unfold getChatStreamRun
  rw [streamMatches_eq, streamMatches_eq, h]

/-- C1 (divergence exhibit): the byte stream
`data: {"choices":[],"c":"é"}\n` delivered whole yields one event whose
`"c"` field is `"é"`, but the same bytes delivered in two chunks split
inside the two-byte character yield an event whose `"c"` field is two
replacement characters — `decoder.decode(value)` is called without
`{ stream: true }`, so the cut sequence is not carried across chunks and
the partitioned run differs from the unpartitioned run. -/
theorem claim_C1_decoder_divergence :
    getChatStreamRunBytes [c1Bytes] = ([c1ItemGood], none) ∧
    getChatStreamRunBytes [c1Chunk1, c1Chunk2] = ([c1ItemBad], none) ∧
    firstEventCField (getChatStreamRunBytes [c1Bytes]) = some (cs "é") ∧
    firstEventCField (getChatStreamRunBytes [c1Chunk1, c1Chunk2]) =
      some ['�', '�'] ∧
    (firstEventCField (getChatStreamRunBytes [c1Bytes]) ==
      firstEventCField (getChatStreamRunBytes [c1Chunk1, c1Chunk2])) = false :=
  ⟨rfl, rfl, rfl, rfl, rfl⟩
